import Mathlib

/-!
Verification of the authorization, membership and invitation logic of the
Kanban-jira-api backend against its natural-language specification.

The definitions below are a shallow embedding of the JavaScript source:
  * `src/utils/permissions.js` (role resolution and the permission matrix),
  * the project controller (`getProjects`, `updateProject`, `removeMember`,
    `updateMemberRole`),
  * the task controller (`updateTask` authorization, `updateComment`,
    `deleteComment`),
  * the organization controller (`inviteUserToOrganization`),
  * the auth controller (`register`),
  * the mongoose schemas (`user.model.js`, `organizationInvitation.model.js`).

MongoDB ObjectIds are modelled as natural numbers, timestamps as natural
numbers (milliseconds), and e-mail addresses as strings.  Fallible
controller code returns `RResult`, carrying the HTTP status and message the
controller responds with.  An `RResult.err` models an early `return
res.status(...)`: the database is left unchanged on every error path, which
the state-passing functions make explicit by returning the input state.
-/

namespace Kanban

/-! ## Data model and embedded operations -/

/-- Mongo ObjectIds are modelled as natural numbers. -/
abbrev Oid := Nat

/-- Organization-level roles.  `user.model.js` and
`organizationInvitation.model.js` both store roles as strings; the four
string values appearing anywhere in the source are these. -/
inductive Role
  | owner
  | admin
  | manager
  | member
deriving DecidableEq, Repr

/-- The `role` enum of `user.model.js` is `['owner', 'admin', 'member']`:
`'manager'` is NOT storable in a User document, and mongoose raises a
ValidationError when `save()` is called with it. -/
def userSchemaRoleOk (r : Role) : Bool :=
  r == Role.owner || r == Role.admin || r == Role.member

/-- The `role` enum of `organizationInvitation.model.js` is
`['owner', 'admin', 'manager', 'member']` (all four values). -/
def invitationSchemaRoleOk (_r : Role) : Bool :=
  true

/-- Project-member roles (`project.model.js`, `members.role` enum). -/
inductive ProjRole
  | admin
  | member
deriving DecidableEq, Repr

/-- A User document (`user.model.js`): name, per-organization-unique email,
one `organization` reference and one stored `role`.  The credential hash is
out of scope.  In-memory the `role` field ranges over all four `Role`
values even though the schema enum rejects `manager` at save time. -/
structure User where
  id : Oid
  name : String
  email : String
  role : Role
  organization : Oid
deriving DecidableEq, Repr

/-- An Organization document (`organization.model.js`): the `owner`
reference is optional (it is `null` between organization creation and the
first user's creation during registration). -/
structure Organization where
  id : Oid
  name : String
  owner : Option Oid
deriving DecidableEq, Repr

/-- One entry of a Project's `members` array. -/
structure ProjMember where
  user : Oid
  role : ProjRole
deriving DecidableEq, Repr

/-- A Project document (`project.model.js`). -/
structure Project where
  id : Oid
  name : String
  description : String
  organization : Oid
  members : List ProjMember
  createdBy : Oid
deriving DecidableEq, Repr

/-- A Board document (`board.model.js`); fields not used by any claim
(title, member list) are omitted. -/
structure Board where
  id : Oid
  project : Oid
  owner : Oid
deriving DecidableEq, Repr

/-- A Task document (`task.model.js`); title/description/attachment carry
no authorization logic and are omitted. -/
structure Task where
  id : Oid
  board : Oid
  assignedTo : List Oid
  createdBy : Oid
deriving DecidableEq, Repr

/-- A Comment document (`comment.model.js`). -/
structure Comment where
  id : Oid
  task : Oid
  author : Oid
  text : String
deriving DecidableEq, Repr

/-- Invitation lifecycle states (`organizationInvitation.model.js`,
`status` enum). -/
inductive InvStatus
  | invited
  | accepted
  | declined
deriving DecidableEq, Repr

/-- An OrganizationInvitation document
(`organizationInvitation.model.js`). -/
structure Invitation where
  id : Oid
  organization : Oid
  invitedBy : Oid
  invitedEmail : String
  memberId : Option Oid
  status : InvStatus
  role : Role
  invitationToken : String
  tokenExpiresAt : Nat
deriving DecidableEq, Repr

/-- JS `String.prototype.trim()`, modelled over the character list (the
core `String.trim` is not kernel-reducible). -/
def strTrim (s : String) : String :=
  ⟨((s.data.dropWhile Char.isWhitespace).reverse.dropWhile
      Char.isWhitespace).reverse⟩

/-- JS `String.prototype.toLowerCase()`, modelled over the character
list. -/
def strLower (s : String) : String :=
  ⟨s.data.map Char.toLower⟩

/-- Result of a controller call: `ok` is the JSON success response, `err`
is an early `return res.status(status).json(msg)`. -/
inductive RResult (α : Type)
  | ok (value : α)
  | err (status : Nat) (msg : String)
deriving DecidableEq, Repr

/-- Whether a controller call succeeded. -/
def RResult.isOk {α : Type} : RResult α → Bool
  | .ok _ => true
  | .err _ _ => false

/-- `getUserRole` from `src/utils/permissions.js` (lines 8-19): if
`organization.owner` equals `user._id` return `'owner'`, otherwise return
the stored `user.role`.  The JS function returns `null` on a missing user
or organization; the embedding takes the documents as given, so that guard
cannot fire. -/
def getUserRole (user : User) (org : Organization) : Role :=
  match org.owner with
  | some ownerId => if ownerId == user.id then Role.owner else user.role
  | none => user.role

/-- `isOwner` from `permissions.js`. -/
def isOwner (user : User) (org : Organization) : Bool :=
  getUserRole user org == Role.owner

/-- `isAdminOrOwner` from `permissions.js`. -/
def isAdminOrOwner (user : User) (org : Organization) : Bool :=
  let role := getUserRole user org
  role == Role.owner || role == Role.admin

/-- `isManagerOrAbove` from `permissions.js`. -/
def isManagerOrAbove (user : User) (org : Organization) : Bool :=
  let role := getUserRole user org
  role == Role.owner || role == Role.admin || role == Role.manager

/-- `isMember` from `permissions.js` (lines 47-60): true when
`user.organization` matches `organization._id`, and otherwise falls back to
`getUserRole(user, organization) !== null`.  For present documents
`getUserRole` never returns `null`, so the fallback is always `true` and
the whole function is constantly `true`; both steps are kept to mirror the
source. -/
def isMember (user : User) (org : Organization) : Bool :=
  if user.organization == org.id then
    true
  else
    true

/-- `canInviteUser` from `permissions.js`. -/
def canInviteUser (user : User) (org : Organization) : Bool :=
  isAdminOrOwner user org

/-- `canCreateTask` from `permissions.js`. -/
def canCreateTask (user : User) (org : Organization) : Bool :=
  isMember user org

/-- `canUpdateTask` from `permissions.js` (lines 121-132): members of the
organization may update when manager-or-above, and otherwise only when
listed in the task's `assignedTo`. -/
def canUpdateTask (user : User) (org : Organization) (task : Task) : Bool :=
  if !(isMember user org) then
    false
  else if isManagerOrAbove user org then
    true
  else
    task.assignedTo.any (fun userId => userId == user.id)

/-- `canDeleteTask` from `permissions.js`. -/
def canDeleteTask (user : User) (org : Organization) : Bool :=
  isManagerOrAbove user org

/-- The per-project access filter of `getProjects` (project controller,
lines 61-122): the project is kept when the STORED `user.role` is
`'owner'` or `'admin'`, or the user is the creator, or the user occurs in
`project.members`.  Note the controller compares `user.role` directly and
never consults `organization.owner`. -/
def projectAccessFilter (user : User) (project : Project) : Bool :=
  if user.role == Role.owner || user.role == Role.admin then
    true
  else if project.createdBy == user.id then
    true
  else
    project.members.any (fun m => m.user == user.id)

/-- `getProjects` (project controller, lines 10-179): all projects of the
user's organization, filtered by `projectAccessFilter`.  Sorting is
presentation-only and omitted. -/
def getProjects (user : User) (projects : List Project) : List Project :=
  (projects.filter (fun p => p.organization == user.organization)).filter
    (projectAccessFilter user)

/-- A user whose stored role is `member` but who is the organization's
owner: the effective role is `owner`. -/
def staleOwnerUser : User :=
  { id := 1, name := "Uma", email := "uma@x.com", role := Role.member,
    organization := 10 }

/-- The organization owned by `staleOwnerUser` (owner linkage set, stored
role stale). -/
def staleOwnerOrg : Organization :=
  { id := 10, name := "Acme", owner := some 1 }

/-- A project of the same organization created by someone else, with an
empty member list. -/
def otherProject : Project :=
  { id := 20, name := "P", description := "", organization := 10,
    members := [], createdBy := 2 }

/-- `updateProject` (project controller, lines 293-331).  The
`org` argument is the ACTOR's own organization document, loaded by the
controller from `user.organization`; the controller checks only "project
admin or org admin/owner" and never compares `project.organization` with
the actor's organization.  `name` falls back on a falsy (empty) value, and
`description` only when `undefined`, mirroring the JS update lines. -/
def updateProject (user : User) (org : Organization) (project : Project)
    (newName : Option String) (newDescription : Option String) :
    RResult Project :=
  let isProjectAdmin := project.members.any
    (fun m => m.user == user.id && m.role == ProjRole.admin)
  if !isProjectAdmin && !(isAdminOrOwner user org) then
    .err 403 "Not authorized"
  else
    let name :=
      match newName with
      | some n => if n == "" then project.name else n
      | none => project.name
    let description :=
      match newDescription with
      | some d => d
      | none => project.description
    .ok { project with name := name, description := description }

/-- An admin of organization 10. -/
def foreignAdmin : User :=
  { id := 1, name := "Mallory", email := "m@a.com", role := Role.admin,
    organization := 10 }

/-- Organization 10, owned by someone else. -/
def foreignAdminOrg : Organization :=
  { id := 10, name := "OrgA", owner := some 9 }

/-- A project belonging to a DIFFERENT organization (11). -/
def victimProject : Project :=
  { id := 20, name := "Victim", description := "", organization := 11,
    members := [], createdBy := 5 }

/-- The fields of an update-task request body; `undefined` is `none`.  The
attachment is carried separately (`req.file`) and plays no role in branch
selection, so it is omitted. -/
structure UpdateTaskReq where
  title : Option String
  description : Option String
  comments : Option String
  assignedTo : Option (List Oid)
  board : Option Oid
  priority : Option String
  dueDate : Option Nat
deriving DecidableEq, Repr

/-- `isOnlyBoardChange` (task controller, lines 240-246): a board move with
no other content field present (priority and dueDate are not consulted). -/
def isOnlyBoardChange (req : UpdateTaskReq) (task : Task) : Bool :=
  req.board.isSome && (req.board != some task.board) && req.title.isNone &&
    req.description.isNone && req.comments.isNone && req.assignedTo.isNone

/-- `isOnlyCommentChange` (task controller, lines 249-255). -/
def isOnlyCommentChange (req : UpdateTaskReq) : Bool :=
  req.comments.isSome && req.title.isNone && req.description.isNone &&
    req.assignedTo.isNone && req.board.isNone && req.priority.isNone &&
    req.dueDate.isNone

/-- The authorization gate of `updateTask` (task controller, lines
228-284), after the Task → Board → Project → Organization chain has been
resolved: cross-organization requests get 403; board-move/comment-only
updates need project membership (or stored org role owner/admin); every
other update goes through `canUpdateTask`. -/
def updateTaskAuth (user : User) (org : Organization) (project : Project)
    (task : Task) (req : UpdateTaskReq) : RResult Unit :=
  if !(project.organization == user.organization) then
    .err 403 "Access denied"
  else
    let isProjectMember := project.members.any (fun m => m.user == user.id)
    if isOnlyBoardChange req task || isOnlyCommentChange req then
      if !isProjectMember && !(user.role == Role.owner) &&
          !(user.role == Role.admin) then
        .err 403 "You must be a project member to update this task"
      else
        .ok ()
    else
      if !(canUpdateTask user org task) then
        .err 403 "Not authorized to update this task"
      else
        .ok ()

/-- A plain member of organization 10, assigned to `assignedTask`. -/
def assignedMember : User :=
  { id := 4, name := "Alex", email := "alex@x.com", role := Role.member,
    organization := 10 }

/-- Organization 10 for the task-update witness. -/
def taskOrg : Organization :=
  { id := 10, name := "Acme", owner := some 1 }

/-- A project of organization 10 with `assignedMember` in its members. -/
def taskProject : Project :=
  { id := 22, name := "T", description := "", organization := 10,
    members := [⟨4, ProjRole.member⟩], createdBy := 1 }

/-- A task assigned to `assignedMember`. -/
def assignedTask : Task :=
  { id := 40, board := 30, assignedTo := [4], createdBy := 1 }

/-- A title-only update request. -/
def titleReq : UpdateTaskReq :=
  { title := some "new title", description := none, comments := none,
    assignedTo := none, board := none, priority := none, dueDate := none }

/-- `removeMember` (project controller, lines 489-531): authorization check
first (project admin or org admin/owner), then the creator guard, then the
filter removing the target from `members`. -/
def removeMember (user : User) (org : Organization) (project : Project)
    (targetUserId : Oid) : RResult Project :=
  let isProjectAdmin := project.members.any
    (fun m => m.user == user.id && m.role == ProjRole.admin)
  if !isProjectAdmin && !(isAdminOrOwner user org) then
    .err 403 "Not authorized"
  else if project.createdBy == targetUserId then
    .err 400 "Cannot remove project creator"
  else
    .ok { project with
      members := project.members.filter (fun m => !(m.user == targetUserId)) }

/-- Mutating the first matching member's role, as `members.find(...)`
followed by an in-place assignment does. -/
def setMemberRole : List ProjMember → Oid → ProjRole → List ProjMember
  | [], _, _ => []
  | m :: ms, uid, r =>
    if m.user == uid then { m with role := r } :: ms
    else m :: setMemberRole ms uid r

/-- `updateMemberRole` (project controller, lines 536-585): same
authorization check, then the creator guard, then a 404 when the target is
not a member, then the role assignment. -/
def updateMemberRole (user : User) (org : Organization) (project : Project)
    (targetUserId : Oid) (newRole : ProjRole) : RResult Project :=
  let isProjectAdmin := project.members.any
    (fun m => m.user == user.id && m.role == ProjRole.admin)
  if !isProjectAdmin && !(isAdminOrOwner user org) then
    .err 403 "Not authorized"
  else if project.createdBy == targetUserId then
    .err 400 "Cannot change project creator role"
  else
    match project.members.find? (fun m => m.user == targetUserId) with
    | none => .err 404 "Member not found"
    | some _ =>
      .ok { project with
        members := setMemberRole project.members targetUserId newRole }

/-- The organization owner for the C7 witness. -/
def c7Owner : User :=
  { id := 1, name := "Olive", email := "olive@x.com", role := Role.owner,
    organization := 10 }

/-- Organization 10, owned by `c7Owner`. -/
def c7Org : Organization :=
  { id := 10, name := "Acme", owner := some 1 }

/-- A project created by user 2, who is also listed as project admin. -/
def c7Project : Project :=
  { id := 21, name := "G", description := "", organization := 10,
    members := [⟨2, ProjRole.admin⟩, ⟨3, ProjRole.member⟩], createdBy := 2 }

/-- A plain member of organization 10 who is not a project admin. -/
def c7WeakCaller : User :=
  { id := 3, name := "Wanda", email := "w@x.com", role := Role.member,
    organization := 10 }

/-- `updateComment` (task controller, lines 744-772): text validation, then
an author-only check — no admin or owner override. -/
def updateComment (actorId : Oid) (comment : Comment) (text : String) :
    RResult Comment :=
  if strTrim text == "" then
    .err 400 "Comment text is required"
  else if !(comment.author == actorId) then
    .err 403 "Not authorized to update this comment"
  else
    .ok { comment with text := strTrim text }

/-- `deleteComment` (task controller, lines 775-810): author, stored role
`'admin'`, or the actor's organization's owner.  (No organization check on
the comment itself, and a stored role of `'owner'` without the owner
linkage does not qualify.) -/
def deleteComment (user : User) (org : Organization) (comment : Comment) :
    RResult Unit :=
  let isAuthor := comment.author == user.id
  let isAdminOrOwnerChk :=
    user.role == Role.admin ||
      (match org.owner with
       | some ownerId => ownerId == user.id
       | none => false)
  if !isAuthor && !isAdminOrOwnerChk then
    .err 403 "Not authorized to delete this comment"
  else
    .ok ()

/-- An admin of organization 10 who did not author `othersComment`. -/
def nonAuthorAdmin : User :=
  { id := 2, name := "Ada", email := "ada@x.com", role := Role.admin,
    organization := 10 }

/-- Organization 10 for the comment counterexample. -/
def commentOrg : Organization :=
  { id := 10, name := "Acme", owner := some 9 }

/-- A comment authored by user 1. -/
def othersComment : Comment :=
  { id := 30, task := 40, author := 1, text := "hi" }

/-- JS `String.prototype.includes` at a single character, modelled over
the character list. -/
def strIncludesChar (s : String) (c : Char) : Bool :=
  s.data.any (fun a => a == c)

/-- The body of a registration request (auth controller `register`);
`undefined` fields are `none`, and the absent-or-empty ("falsy") checks of
the controller are modelled as emptiness checks. -/
structure RegisterReq where
  name : String
  email : String
  password : String
  invitationToken : Option String
  organizationName : Option String
deriving DecidableEq, Repr

/-- Outcome of `register`: the response together with the stores it may
have changed. -/
structure RegOutcome where
  result : RResult User
  users : List User
  orgs : List Organization
  invitations : List Invitation
deriving DecidableEq, Repr

/-- The invitation lookup of `register` (auth controller, lines 39-43):
one record with that token, status `'invited'`, and expiry strictly in the
future. -/
def findLiveInvitation (invs : List Invitation) (token : String)
    (now : Nat) : Option Invitation :=
  invs.find? (fun i =>
    i.invitationToken == token && i.status == InvStatus.invited &&
      decide (now < i.tokenExpiresAt))

/-- `User.findOne({ email, organization })`. -/
def findUserByEmailOrg (users : List User) (email : String) (orgId : Oid) :
    Option User :=
  users.find? (fun u => u.email == email && u.organization == orgId)

/-- Seven days in milliseconds, the invitation lifetime used by both the
schema default and the invite controller. -/
def invitationTtlMs : Nat := 7 * 24 * 60 * 60 * 1000

/-- The tail of `register` (auth controller, lines 74-186) once the target
organization and role are determined: the duplicate-email check inside the
target organization, `User.save()` (whose mongoose validation applies the
role enum of `user.model.js`, rejecting `'manager'`), the owner
back-patching for a newly created organization, and the invitation
update to `'accepted'`.  A save-time ValidationError is rethrown by the
controller's catch-all and surfaces as a 500. -/
def registerFinish (users : List User) (orgs : List Organization)
    (invs : List Invitation) (req : RegisterReq) (organizationId : Oid)
    (userRole : Role) (token : Option String) (freshUserId : Oid) :
    RegOutcome :=
  match findUserByEmailOrg users (strLower req.email) organizationId with
  | some _ =>
    ⟨.err 400 "User already exists in this organization", users, orgs, invs⟩
  | none =>
    if !(userSchemaRoleOk userRole) then
      ⟨.err 500 "Server error", users, orgs, invs⟩
    else
      let newUser : User :=
        { id := freshUserId, name := req.name, email := strLower req.email,
          role := userRole, organization := organizationId }
      let users2 := users ++ [newUser]
      let orgs2 :=
        if userRole == Role.owner then
          orgs.map (fun o =>
            if o.id == organizationId then { o with owner := some freshUserId }
            else o)
        else
          orgs
      let invs2 :=
        match token with
        | some t =>
          invs.map (fun i =>
            if i.invitationToken == t then
              { i with
                memberId := some freshUserId
                status := InvStatus.accepted }
            else i)
        | none => invs
      ⟨.ok newUser, users2, orgs2, invs2⟩

/-- `register` (auth controller, lines 9-213): field validation, then
either the invitation-token path (note: the registering email is NEVER
compared against the invitation's `invitedEmail`) or the
create-organization path.  `freshUserId`/`freshOrgId` stand for the new
document ids. -/
def register (users : List User) (orgs : List Organization)
    (invs : List Invitation) (now : Nat) (freshUserId : Oid)
    (freshOrgId : Oid) (req : RegisterReq) : RegOutcome :=
  if req.name == "" || req.email == "" || req.password == "" then
    ⟨.err 400 "Name, email, and password are required", users, orgs, invs⟩
  else
    match req.invitationToken with
    | some token =>
      match findLiveInvitation invs token now with
      | none => ⟨.err 400 "Invalid or expired invitation", users, orgs, invs⟩
      | some invitation =>
        let userRole :=
          if invitation.role == Role.owner || invitation.role == Role.admin ||
              invitation.role == Role.manager ||
              invitation.role == Role.member then
            invitation.role
          else
            Role.member
        registerFinish users orgs invs req invitation.organization userRole
          (some token) freshUserId
    | none =>
      match req.organizationName with
      | some orgName =>
        let newOrg : Organization :=
          { id := freshOrgId, name := orgName, owner := none }
        registerFinish users (orgs ++ [newOrg]) invs req freshOrgId
          Role.owner none freshUserId
      | none =>
        ⟨.err 400 "Organization invitation token or organization name required",
          users, orgs, invs⟩

/-- `OrganizationInvitation.findOne({ organization, invitedEmail })`. -/
def findInvitationByOrgEmail (invs : List Invitation) (orgId : Oid)
    (email : String) : Option Invitation :=
  invs.find? (fun i => i.organization == orgId && i.invitedEmail == email)

/-- The role validation of the invite controller (line 423):
`role && ['member', 'manager', 'admin'].includes(role) ? role : 'member'`. -/
def validatedInviteRole (roleReq : Option Role) : Role :=
  match roleReq with
  | some r =>
    if r == Role.member || r == Role.manager || r == Role.admin then r
    else Role.member
  | none => Role.member

/-- `inviteUserToOrganization` (organization controller, lines 378-613):
validation, the permission check, the duplicate-user check, then the
dedup-by-recycle logic over the one invitation row per (organization,
normalized email).  `freshToken` stands for
`crypto.randomBytes(32).toString('hex')` and `freshId` for the new
document id; the bounded token-collision retry loop is invisible to the
caller unless exhausted and the fresh token is taken as collision-free.
The branch appending a new row while one exists mirrors the JS
fall-through to the creation loop and is unreachable. -/
def inviteUserToOrganization (users : List User) (invs : List Invitation)
    (actor : User) (org : Organization) (now : Nat) (freshToken : String)
    (freshId : Oid) (email : String) (roleReq : Option Role) :
    RResult Invitation × List Invitation :=
  if !(strIncludesChar email '@') then
    (.err 400 "Valid email address is required", invs)
  else
    let invitedRole := validatedInviteRole roleReq
    if !(canInviteUser actor org) then
      (.err 403 "Not authorized to invite users. Only admins and owners can invite.",
        invs)
    else
      let normalizedEmail := strTrim (strLower email)
      match findUserByEmailOrg users normalizedEmail org.id with
      | some _ => (.err 400 "User already in organization", invs)
      | none =>
        match findInvitationByOrgEmail invs org.id normalizedEmail with
        | some existing =>
          if existing.status == InvStatus.invited &&
              decide (now < existing.tokenExpiresAt) then
            (.err 400 "Invitation already sent to this email. Please wait for it to be accepted or expired.",
              invs)
          else
            match (if existing.status == InvStatus.accepted then
                findUserByEmailOrg users normalizedEmail org.id
              else none) with
            | some _ => (.err 400 "User already in organization", invs)
            | none =>
              let existing2 :=
                if existing.status == InvStatus.accepted then
                  { existing with status := InvStatus.declined }
                else existing
              if existing2.status == InvStatus.declined ||
                  existing2.status == InvStatus.accepted ||
                  decide (existing2.tokenExpiresAt ≤ now) then
                let recycled :=
                  { existing2 with
                    status := InvStatus.invited
                    invitedBy := actor.id
                    invitedEmail := normalizedEmail
                    invitationToken := freshToken
                    tokenExpiresAt := now + invitationTtlMs
                    memberId := none
                    role := invitedRole }
                (.ok recycled,
                  invs.map (fun i => if i.id == existing.id then recycled else i))
              else
                let newInv : Invitation :=
                  { id := freshId, organization := org.id,
                    invitedBy := actor.id, invitedEmail := normalizedEmail,
                    memberId := none, status := InvStatus.invited,
                    role := invitedRole, invitationToken := freshToken,
                    tokenExpiresAt := now + invitationTtlMs }
                (.ok newInv, invs ++ [newInv])
        | none =>
          let newInv : Invitation :=
            { id := freshId, organization := org.id, invitedBy := actor.id,
              invitedEmail := normalizedEmail, memberId := none,
              status := InvStatus.invited, role := invitedRole,
              invitationToken := freshToken,
              tokenExpiresAt := now + invitationTtlMs }
          (.ok newInv, invs ++ [newInv])

/-- An invitation that is still `invited` but whose expiry has passed. -/
def c4ExpiredInv : Invitation :=
  { id := 51, organization := 10, invitedBy := 1,
    invitedEmail := "bob@x.com", memberId := none,
    status := InvStatus.invited, role := Role.member,
    invitationToken := "oldTok", tokenExpiresAt := 5 }

/-- A live (invited, unexpired) invitation. -/
def c4LiveInv : Invitation :=
  { id := 52, organization := 10, invitedBy := 1,
    invitedEmail := "bob@x.com", memberId := none,
    status := InvStatus.invited, role := Role.member,
    invitationToken := "liveTok", tokenExpiresAt := 999999999 }

/-- A registration request carrying the expired token. -/
def c4ReqOld : RegisterReq :=
  { name := "Bob", email := "bob@x.com", password := "hunter2",
    invitationToken := some "oldTok", organizationName := none }

/-- A registration request carrying the live token. -/
def c4ReqLive : RegisterReq :=
  { name := "Bob", email := "bob@x.com", password := "hunter2",
    invitationToken := some "liveTok", organizationName := none }

/-- A live invitation addressed to `bob@x.com`. -/
def c10Inv : Invitation :=
  { id := 53, organization := 10, invitedBy := 1,
    invitedEmail := "bob@x.com", memberId := none,
    status := InvStatus.invited, role := Role.member,
    invitationToken := "tkX", tokenExpiresAt := 1000 }

/-- A registration request by a DIFFERENT email carrying bob's token. -/
def c10Req : RegisterReq :=
  { name := "Eve", email := "EVE@x.com", password := "pw",
    invitationToken := some "tkX", organizationName := none }

/-- A user already registered in organization 10 with `eve@x.com`. -/
def c10Eve : User :=
  { id := 7, name := "Eve", email := "eve@x.com", role := Role.member,
    organization := 10 }

/-- A registration request by `eve@x.com` carrying bob's token. -/
def c10ReqDup : RegisterReq :=
  { name := "Eve", email := "eve@x.com", password := "pw",
    invitationToken := some "tkX", organizationName := none }

/-- The admin who sends the C5 witness invitations. -/
def c5Admin : User :=
  { id := 2, name := "Ann", email := "ann@x.com", role := Role.admin,
    organization := 10 }

/-- Organization 10 for the C5 witness. -/
def c5Org : Organization :=
  { id := 10, name := "Acme", owner := some 1 }

/-- A live invitation for (org 10, `bob@x.com`). -/
def c5LiveInv : Invitation :=
  { id := 54, organization := 10, invitedBy := 2,
    invitedEmail := "bob@x.com", memberId := none,
    status := InvStatus.invited, role := Role.member,
    invitationToken := "tokLive", tokenExpiresAt := 999 }

/-- A declined invitation for (org 10, `bob@x.com`). -/
def c5DeclinedInv : Invitation :=
  { id := 55, organization := 10, invitedBy := 2,
    invitedEmail := "bob@x.com", memberId := none,
    status := InvStatus.declined, role := Role.member,
    invitationToken := "tokOld", tokenExpiresAt := 999 }

/-- The owner of organization Acme. -/
def acmeOwner : User :=
  { id := 1, name := "Ursula", email := "u1@x.com", role := Role.owner,
    organization := 10 }

/-- Organization Acme, owned by `acmeOwner`. -/
def acmeOrg : Organization :=
  { id := 10, name := "Acme", owner := some 1 }

/-- The invitation the owner sends to `bob@x.com` with target role
`manager` (the invitation schema accepts `manager`). -/
def managerInvitation : Invitation :=
  { id := 50, organization := 10, invitedBy := 1,
    invitedEmail := "bob@x.com", memberId := none,
    status := InvStatus.invited, role := Role.manager,
    invitationToken := "tokM", tokenExpiresAt := 0 + invitationTtlMs }

/-- Bob's registration request with the manager-role token. -/
def bobManagerReq : RegisterReq :=
  { name := "Bob", email := "bob@x.com", password := "hunter2",
    invitationToken := some "tokM", organizationName := none }

/-! ## Theorems -/

theorem projectAccessFilter_iff (user : User) (project : Project) :
    projectAccessFilter user project = true ↔
      (user.role = Role.owner ∨ user.role = Role.admin) ∨
        project.createdBy = user.id ∨
          ∃ m ∈ project.members, m.user = user.id := by
  unfold projectAccessFilter
  by_cases h1 : user.role = Role.owner ∨ user.role = Role.admin
  · have hb : (user.role == Role.owner || user.role == Role.admin) = true := by
      rcases h1 with h | h <;> simp [h]
    simp [hb, h1]
  · have hb : (user.role == Role.owner || user.role == Role.admin) = false := by
      rcases not_or.mp h1 with ⟨ha, ha2⟩
      simp [ha, ha2]
    by_cases h2 : project.createdBy = user.id
    · simp [hb, h2]
    · simp [hb, h2, h1, List.any_eq_true, beq_iff_eq]

/-- C1 (amended): a project appears in the result of `getProjects` iff it
belongs to the actor's organization and (the actor's STORED `user.role` is
`'owner'` or `'admin'`, or the actor is `createdBy`, or the actor is listed
in `members`).  The stored role, not the effective role resolved through
`organization.owner`, is what the controller consults. -/
theorem c1_getProjects_visibility (user : User) (projects : List Project)
    (p : Project) :
    p ∈ getProjects user projects ↔
      p ∈ projects ∧ p.organization = user.organization ∧
        ((user.role = Role.owner ∨ user.role = Role.admin) ∨
          p.createdBy = user.id ∨ ∃ m ∈ p.members, m.user = user.id) := by
  unfold getProjects
  rw [List.mem_filter, List.mem_filter]
  rw [projectAccessFilter_iff]
  simp [and_assoc]

/-- C1 counterexample: `staleOwnerUser`'s effective organization role is
`owner` (so the claimed three-way OR holds for `otherProject`), yet
`getProjects` does not return the project, because the controller tests the
stored `user.role` instead of the effective role. -/
theorem c1_effective_role_counterexample :
    getUserRole staleOwnerUser staleOwnerOrg = Role.owner ∧
      otherProject ∉ getProjects staleOwnerUser [otherProject] := by
  decide

/-- C3: `getUserRole` is a function (hence deterministic) and returns
`owner` exactly when `organization.owner` equals `user.id`, and the stored
`user.role` otherwise, so the `Organization.owner` linkage always takes
precedence over a stale `user.role` field. -/
theorem c3_getUserRole_resolves_owner_linkage (user : User)
    (org : Organization) :
    getUserRole user org =
      if org.owner = some user.id then Role.owner else user.role := by
  unfold getUserRole
  cases h : org.owner with
  | none => simp
  | some ownerId =>
    by_cases he : ownerId = user.id
    · simp [he]
    · simp [he, Option.some_inj]

/-- C2 (code bug): an admin of organization 10 invoking `updateProject` on
a project of organization 11 is NOT rejected: the controller's only guard
is "project admin or org admin/owner", evaluated against the actor's own
organization, so the cross-tenant write succeeds instead of returning the
Forbidden result the specification requires. -/
theorem c2_cross_tenant_update_bug :
    foreignAdmin.organization ≠ victimProject.organization ∧
      isAdminOrOwner foreignAdmin foreignAdminOrg = true ∧
      updateProject foreignAdmin foreignAdminOrg victimProject
          (some "hijacked") none =
        .ok { victimProject with name := "hijacked" } := by
  decide

theorem isMember_always (user : User) (org : Organization) :
    isMember user org = true := by
  unfold isMember
  split <;> rfl

theorem contentReq_not_special (req : UpdateTaskReq) (task : Task)
    (h : req.title ≠ none ∨ req.description ≠ none ∨ req.assignedTo ≠ none) :
    isOnlyBoardChange req task = false ∧ isOnlyCommentChange req = false := by
  unfold isOnlyBoardChange isOnlyCommentChange
  rcases h with h | h | h <;>
    rcases Option.ne_none_iff_exists.mp h with ⟨v, hv⟩ <;>
      rw [← hv] <;> simp

/-- C6: for a task in the actor's organization and a content update (one
touching title, description or assignees), an actor whose effective role is
`member` passes the gate iff listed in `assignedTo` (otherwise 403), and an
actor whose effective role is manager or above always passes. -/
theorem c6_task_update_permission (user : User) (org : Organization)
    (project : Project) (task : Task) (req : UpdateTaskReq)
    (hporg : project.organization = user.organization)
    (hcontent : req.title ≠ none ∨ req.description ≠ none ∨
      req.assignedTo ≠ none) :
    (getUserRole user org = Role.member →
        (updateTaskAuth user org project task req = .ok () ↔
          user.id ∈ task.assignedTo)) ∧
      (getUserRole user org = Role.member → user.id ∉ task.assignedTo →
        updateTaskAuth user org project task req =
          .err 403 "Not authorized to update this task") ∧
      (isManagerOrAbove user org = true →
        updateTaskAuth user org project task req = .ok ()) := by
  obtain ⟨hbc, hcc⟩ := contentReq_not_special req task hcontent
  have hgate : updateTaskAuth user org project task req =
      if !(canUpdateTask user org task) then
        .err 403 "Not authorized to update this task"
      else
        .ok () := by
    unfold updateTaskAuth
    rw [hbc, hcc]
    simp [hporg]
  refine ⟨?_, ?_, ?_⟩
  · intro hrole
    have hmao : isManagerOrAbove user org = false := by
      unfold isManagerOrAbove
      rw [hrole]
      rfl
    have hcu : canUpdateTask user org task =
        task.assignedTo.any (fun userId => userId == user.id) := by
      unfold canUpdateTask
      rw [isMember_always, hmao]
      rfl
    by_cases hassigned : user.id ∈ task.assignedTo
    · have hany : task.assignedTo.any (fun userId => userId == user.id)
          = true :=
        List.any_eq_true.mpr ⟨user.id, hassigned, by simp⟩
      simp [hgate, hcu, hany, hassigned]
    · have hany : task.assignedTo.any (fun userId => userId == user.id)
          = false := by
        rw [Bool.eq_false_iff]
        intro hcontra
        rcases List.any_eq_true.mp hcontra with ⟨x, hx, hxe⟩
        exact hassigned (beq_iff_eq.mp hxe ▸ hx)
      simp [hgate, hcu, hany, hassigned]
  · intro hrole hnot
    have hmao : isManagerOrAbove user org = false := by
      unfold isManagerOrAbove
      rw [hrole]
      rfl
    have hcu : canUpdateTask user org task =
        task.assignedTo.any (fun userId => userId == user.id) := by
      unfold canUpdateTask
      rw [isMember_always, hmao]
      rfl
    have hany : task.assignedTo.any (fun userId => userId == user.id)
        = false := by
      rw [Bool.eq_false_iff]
      intro hcontra
      rcases List.any_eq_true.mp hcontra with ⟨x, hx, hxe⟩
      exact hnot (beq_iff_eq.mp hxe ▸ hx)
    simp [hgate, hcu, hany]
  · intro hmao
    have hcu : canUpdateTask user org task = true := by
      unfold canUpdateTask
      rw [isMember_always, hmao]
      rfl
    simp [hgate, hcu]

/-- Witness for C6: an assigned `member` passes the content-update gate of
`updateTaskAuth`. -/
theorem c6_task_update_witness :
    updateTaskAuth assignedMember taskOrg taskProject assignedTask titleReq
      = .ok () := by
  have h := c6_task_update_permission assignedMember taskOrg taskProject
    assignedTask titleReq (by decide) (by decide)
  exact (h.1 (by decide)).mpr (by decide)

/-- C7 (amended): for every caller who passes the mutators' authorization
check (a project admin or an org admin/owner), a request to remove the
project's creator or to change the creator's member role is rejected with
the 400 Conflict responses, distinct from the 403 authorization failure;
the error return means no save is issued, so the project is unchanged. -/
theorem c7_creator_protected (user : User) (org : Organization)
    (project : Project) (newRole : ProjRole)
    (hauth : project.members.any
        (fun m => m.user == user.id && m.role == ProjRole.admin) = true ∨
      isAdminOrOwner user org = true) :
    removeMember user org project project.createdBy =
        .err 400 "Cannot remove project creator" ∧
      updateMemberRole user org project project.createdBy newRole =
        .err 400 "Cannot change project creator role" := by
  unfold removeMember updateMemberRole
  rcases hauth with h | h <;> simp [h]

/-- Witness for C7: the org owner's request to remove or demote the
creator of `c7Project` is answered by the two Conflict errors. -/
theorem c7_creator_witness :
    removeMember c7Owner c7Org c7Project c7Project.createdBy =
        .err 400 "Cannot remove project creator" ∧
      updateMemberRole c7Owner c7Org c7Project c7Project.createdBy
          ProjRole.member =
        .err 400 "Cannot change project creator role" :=
  c7_creator_protected c7Owner c7Org c7Project ProjRole.member
    (Or.inr (by decide))

/-- C7 counterexample: for this caller the request to remove the creator is
rejected with the 403 authorization failure, not with the Conflict error,
so the Conflict rejection does NOT happen "regardless of the caller's
role": the authorization check precedes the creator guard. -/
theorem c7_unauthorized_caller_counterexample :
    removeMember c7WeakCaller c7Org c7Project c7Project.createdBy =
      .err 403 "Not authorized" := by
  decide

/-- C9 (amended): updating a comment is permitted exactly for its author;
deleting it is permitted exactly for its author, a user whose stored role
is `'admin'`, or the user the organization's `owner` field points at.
Admins are NOT permitted to update someone else's comment. -/
theorem c9_comment_permissions (user : User) (org : Organization)
    (comment : Comment) (text : String) (htext : strTrim text ≠ "") :
    ((updateComment user.id comment text).isOk = true ↔
        comment.author = user.id) ∧
      ((deleteComment user org comment).isOk = true ↔
        (comment.author = user.id ∨ user.role = Role.admin ∨
          org.owner = some user.id)) := by
  constructor
  · unfold updateComment
    have ht : (strTrim text == "") = false := by simp [htext]
    rw [ht]
    by_cases ha : comment.author = user.id <;> simp [ha, RResult.isOk]
  · unfold deleteComment
    cases horg : org.owner with
    | none =>
      by_cases ha : comment.author = user.id <;>
        by_cases hr : user.role = Role.admin <;>
          simp [ha, hr, RResult.isOk]
    | some o =>
      by_cases ha : comment.author = user.id <;>
        by_cases hr : user.role = Role.admin <;>
          by_cases ho : o = user.id <;>
            simp [ha, hr, ho, RResult.isOk]

/-- C9 counterexample: an organization admin (effective role `admin`) who
is not the author is refused the comment update with 403, contradicting the
claim that update is permitted for any actor of effective role admin or
above. -/
theorem c9_admin_update_counterexample :
    getUserRole nonAuthorAdmin commentOrg = Role.admin ∧
      updateComment nonAuthorAdmin.id othersComment "edited" =
        .err 403 "Not authorized to update this comment" := by
  decide

/-- Witness for C9: the author may update their own comment; a stored-role
admin may delete it. -/
theorem c9_comment_witness :
    (updateComment 1 othersComment "edited").isOk = true ∧
      (deleteComment nonAuthorAdmin commentOrg othersComment).isOk = true := by
  have h1 := c9_comment_permissions
    { id := 1, name := "Bo", email := "bo@x.com", role := Role.member,
      organization := 10 }
    commentOrg othersComment "edited" (by decide)
  have h2 := c9_comment_permissions nonAuthorAdmin commentOrg othersComment
    "edited" (by decide)
  exact ⟨h1.1.mpr (by decide), h2.2.mpr (Or.inr (Or.inl (by decide)))⟩

theorem register_invalid_token (users : List User) (orgs : List Organization)
    (invs : List Invitation) (now : Nat) (fu fo : Oid) (req : RegisterReq)
    (tok : String)
    (hb : (req.name == "" || req.email == "" || req.password == "") = false)
    (ht : req.invitationToken = some tok)
    (hfind : findLiveInvitation invs tok now = none) :
    register users orgs invs now fu fo req =
      ⟨.err 400 "Invalid or expired invitation", users, orgs, invs⟩ := by
  unfold register
  simp [hb, ht, hfind]

theorem registerFinish_ok_invitations (users : List User)
    (orgs : List Organization) (invs : List Invitation) (req : RegisterReq)
    (orgId : Oid) (role : Role) (tok : String) (fu : Oid) (u : User)
    (hok : (registerFinish users orgs invs req orgId role (some tok) fu).result
      = .ok u) :
    (registerFinish users orgs invs req orgId role (some tok) fu).invitations
      = invs.map (fun i =>
          if i.invitationToken == tok then
            { i with memberId := some fu, status := InvStatus.accepted }
          else i) := by
  unfold registerFinish at hok ⊢
  cases hfu : findUserByEmailOrg users (strLower req.email) orgId with
  | some w =>
    rw [hfu] at hok
    simp at hok
  | none =>
    by_cases hro : userSchemaRoleOk role = true
    · simp [hro]
    · have hrf : userSchemaRoleOk role = false := by
        simpa using hro
      rw [hfu] at hok
      simp [hrf] at hok

theorem findLiveInvitation_after_accept (invs : List Invitation)
    (tok : String) (fu : Oid) (now2 : Nat) :
    findLiveInvitation (invs.map (fun i =>
        if i.invitationToken == tok then
          { i with memberId := some fu, status := InvStatus.accepted }
        else i)) tok now2 = none := by
  apply List.find?_eq_none.mpr
  intro j hj
  rcases List.mem_map.mp hj with ⟨i, hi, rfl⟩
  by_cases hit : i.invitationToken = tok
  · have hb : ((i.invitationToken == tok) = true) := by simp [hit]
    rw [if_pos hb]
    simp
  · have hb : ¬((i.invitationToken == tok) = true) := by simp [hit]
    rw [if_neg hb]
    simp [hit]

theorem findLiveInvitation_expired_unique (invs : List Invitation)
    (tok : String) (now : Nat) (inv : Invitation)
    (htok : inv.invitationToken = tok) (hexp : inv.tokenExpiresAt ≤ now)
    (huniq : ∀ j ∈ invs, j.invitationToken = tok → j = inv) :
    findLiveInvitation invs tok now = none := by
  apply List.find?_eq_none.mpr
  intro j hj
  by_cases hjt : j.invitationToken = tok
  · have hje := huniq j hj hjt
    subst hje
    simp [htok, Nat.not_lt.mpr hexp]
  · simp [hjt]

theorem accepted_after_register_map (invs : List Invitation) (tok : String)
    (fu : Oid) :
    ∀ j ∈ invs.map (fun i =>
        if i.invitationToken == tok then
          { i with memberId := some fu, status := InvStatus.accepted }
        else i),
      j.invitationToken = tok → j.status = InvStatus.accepted := by
  intro j hj hjt
  rcases List.mem_map.mp hj with ⟨i, hi, rfl⟩
  by_cases hit : i.invitationToken = tok
  · have hb : ((i.invitationToken == tok) = true) := by simp [hit]
    rw [if_pos hb]
  · have hb : ¬((i.invitationToken == tok) = true) := by simp [hit]
    rw [if_neg hb] at hjt
    exact absurd hjt hit

/-- C4: registering with an invitation token fails with the
invalid-or-expired error (and changes nothing) unless a record exists with
that exact token, status `'invited'` and expiry strictly in the future;
an invitation that is still `'invited'` but expired does not satisfy the
lookup; and once a registration has consumed a token, a second
registration attempt with the same token fails with the same error and
creates no further User. -/
theorem c4_invitation_token_acceptance (users : List User)
    (orgs : List Organization) (invs : List Invitation) (now now2 : Nat)
    (fu fo fu2 fo2 : Oid) (req req2 : RegisterReq) (tok : String)
    (hn : req.name ≠ "") (he : req.email ≠ "") (hp : req.password ≠ "")
    (ht : req.invitationToken = some tok)
    (hn2 : req2.name ≠ "") (he2 : req2.email ≠ "") (hp2 : req2.password ≠ "")
    (ht2 : req2.invitationToken = some tok) :
    (findLiveInvitation invs tok now = none →
        register users orgs invs now fu fo req =
          ⟨.err 400 "Invalid or expired invitation", users, orgs, invs⟩) ∧
      (∀ inv ∈ invs, inv.invitationToken = tok →
        inv.status = InvStatus.invited → inv.tokenExpiresAt ≤ now →
        (∀ j ∈ invs, j.invitationToken = tok → j = inv) →
        register users orgs invs now fu fo req =
          ⟨.err 400 "Invalid or expired invitation", users, orgs, invs⟩) ∧
      (∀ u, (register users orgs invs now fu fo req).result = .ok u →
        register (register users orgs invs now fu fo req).users
            (register users orgs invs now fu fo req).orgs
            (register users orgs invs now fu fo req).invitations
            now2 fu2 fo2 req2 =
          ⟨.err 400 "Invalid or expired invitation",
            (register users orgs invs now fu fo req).users,
            (register users orgs invs now fu fo req).orgs,
            (register users orgs invs now fu fo req).invitations⟩) := by
  have hb : (req.name == "" || req.email == "" || req.password == "")
      = false := by
    simp [hn, he, hp]
  have hb2 : (req2.name == "" || req2.email == "" || req2.password == "")
      = false := by
    simp [hn2, he2, hp2]
  refine ⟨?_, ?_, ?_⟩
  · intro hfind
    exact register_invalid_token users orgs invs now fu fo req tok hb ht hfind
  · intro inv _ htok _ hexp huniq
    exact register_invalid_token users orgs invs now fu fo req tok hb ht
      (findLiveInvitation_expired_unique invs tok now inv htok hexp huniq)
  · intro u hok
    cases hf : findLiveInvitation invs tok now with
    | none =>
      rw [register_invalid_token users orgs invs now fu fo req tok hb ht hf]
        at hok
      simp at hok
    | some inv =>
      have hstep : register users orgs invs now fu fo req =
          registerFinish users orgs invs req inv.organization
            (if inv.role == Role.owner || inv.role == Role.admin ||
                inv.role == Role.manager || inv.role == Role.member then
              inv.role
            else Role.member) (some tok) fu := by
        unfold register
        simp [hb, ht, hf]
      rw [hstep] at hok ⊢
      have hnone : findLiveInvitation
          (registerFinish users orgs invs req inv.organization
            (if inv.role == Role.owner || inv.role == Role.admin ||
                inv.role == Role.manager || inv.role == Role.member then
              inv.role
            else Role.member) (some tok) fu).invitations tok now2 = none := by
        rw [registerFinish_ok_invitations users orgs invs req
          inv.organization _ tok fu u hok]
        exact findLiveInvitation_after_accept invs tok fu now2
      exact register_invalid_token _ _ _ now2 fu2 fo2 req2 tok hb2 ht2 hnone

/-- Witness for C4: at time 10 the expired token is refused although its
record still says `invited`, and re-running registration with the live
token after it has been consumed is refused with the same error. -/
theorem c4_acceptance_witness :
    (register [] [] [c4ExpiredInv, c4LiveInv] 10 60 70 c4ReqOld =
        ⟨.err 400 "Invalid or expired invitation", [], [],
          [c4ExpiredInv, c4LiveInv]⟩) ∧
      register (register [] [] [c4ExpiredInv, c4LiveInv] 10 60 70 c4ReqLive).users
          (register [] [] [c4ExpiredInv, c4LiveInv] 10 60 70 c4ReqLive).orgs
          (register [] [] [c4ExpiredInv, c4LiveInv] 10 60 70 c4ReqLive).invitations
          20 61 71 c4ReqLive =
        ⟨.err 400 "Invalid or expired invitation",
          (register [] [] [c4ExpiredInv, c4LiveInv] 10 60 70 c4ReqLive).users,
          (register [] [] [c4ExpiredInv, c4LiveInv] 10 60 70 c4ReqLive).orgs,
          (register [] [] [c4ExpiredInv, c4LiveInv] 10 60 70 c4ReqLive).invitations⟩ := by
  have h1 := c4_invitation_token_acceptance [] [] [c4ExpiredInv, c4LiveInv]
    10 20 60 70 61 71 c4ReqOld c4ReqOld "oldTok" (by decide) (by decide)
    (by decide) (by decide) (by decide) (by decide) (by decide) (by decide)
  have h2 := c4_invitation_token_acceptance [] [] [c4ExpiredInv, c4LiveInv]
    10 20 60 70 61 71 c4ReqLive c4ReqLive "liveTok" (by decide) (by decide)
    (by decide) (by decide) (by decide) (by decide) (by decide) (by decide)
  refine ⟨h1.1 (by decide), ?_⟩
  exact h2.2.2
    { id := 60, name := "Bob", email := "bob@x.com", role := Role.member,
      organization := 10 } (by decide)

/-- C10 (amended): registration with a valid, unexpired token never
consults the invitation's `invitedEmail`: for ANY request email whose
lowercased form is not already taken inside the invitation's organization,
and provided the invitation's role is storable in the User schema, a User
with that email is created in the invitation's organization and the
invitation is marked accepted — no hypothesis relates the request email to
`invitedEmail`. -/
theorem c10_token_only_registration (users : List User)
    (orgs : List Organization) (invs : List Invitation) (now : Nat)
    (fu fo : Oid) (req : RegisterReq) (tok : String) (inv : Invitation)
    (hn : req.name ≠ "") (he : req.email ≠ "") (hp : req.password ≠ "")
    (ht : req.invitationToken = some tok)
    (hfind : findLiveInvitation invs tok now = some inv)
    (hnodup : findUserByEmailOrg users (strLower req.email) inv.organization
      = none)
    (hrole : userSchemaRoleOk inv.role = true) :
    ∃ u, (register users orgs invs now fu fo req).result = .ok u ∧
      u.email = strLower req.email ∧ u.organization = inv.organization ∧
      u.role = inv.role ∧
      ∀ j ∈ (register users orgs invs now fu fo req).invitations,
        j.invitationToken = tok → j.status = InvStatus.accepted := by
  have hb : (req.name == "" || req.email == "" || req.password == "")
      = false := by
    simp [hn, he, hp]
  have hall : (inv.role == Role.owner || inv.role == Role.admin ||
      inv.role == Role.manager || inv.role == Role.member) = true := by
    cases inv.role <;> rfl
  have hstep : register users orgs invs now fu fo req =
      registerFinish users orgs invs req inv.organization inv.role
        (some tok) fu := by
    unfold register
    simp [hb, ht, hfind, hall]
  have hok : (registerFinish users orgs invs req inv.organization inv.role
      (some tok) fu).result =
      .ok ⟨fu, req.name, strLower req.email, inv.role, inv.organization⟩ := by
    unfold registerFinish
    rw [hnodup]
    simp [hrole]
  refine ⟨⟨fu, req.name, strLower req.email, inv.role, inv.organization⟩,
    ?_, rfl, rfl, rfl, ?_⟩
  · rw [hstep]
    exact hok
  · rw [hstep]
    rw [registerFinish_ok_invitations users orgs invs req inv.organization
      inv.role tok fu _ hok]
    exact accepted_after_register_map invs tok fu

/-- Witness for C10: `EVE@x.com` registers with the token that was sent to
`bob@x.com` and is admitted into the organization. -/
theorem c10_token_only_witness :
    c10Req.email ≠ c10Inv.invitedEmail ∧
      ∃ u, (register [] [] [c10Inv] 10 60 70 c10Req).result = .ok u ∧
        u.email = strLower c10Req.email ∧
        u.organization = c10Inv.organization ∧
        u.role = c10Inv.role ∧
        ∀ j ∈ (register [] [] [c10Inv] 10 60 70 c10Req).invitations,
          j.invitationToken = "tkX" → j.status = InvStatus.accepted := by
  refine ⟨by decide, ?_⟩
  exact c10_token_only_registration [] [] [c10Inv] 10 60 70 c10Req "tkX"
    c10Inv (by decide) (by decide) (by decide) rfl (by decide) (by decide)
    (by decide)

/-- C10 counterexample: the token is valid and live and the email differs
from `invitedEmail`, yet no User is created and the invitation is not
marked accepted, because `eve@x.com` already has a User in the
organization — the claim's unqualified "for any email E" fails. -/
theorem c10_duplicate_email_counterexample :
    c10ReqDup.email ≠ c10Inv.invitedEmail ∧
      findLiveInvitation [c10Inv] "tkX" 10 = some c10Inv ∧
      register [c10Eve] [] [c10Inv] 10 60 70 c10ReqDup =
        ⟨.err 400 "User already exists in this organization", [c10Eve], [],
          [c10Inv]⟩ := by
  decide

theorem findLiveInvitation_after_recycle (invs : List Invitation)
    (ex recycled : Invitation) (now2 : Nat)
    (htokne : recycled.invitationToken ≠ ex.invitationToken)
    (huniq : ∀ j ∈ invs, j.invitationToken = ex.invitationToken → j = ex) :
    findLiveInvitation
      (invs.map (fun i => if i.id == ex.id then recycled else i))
      ex.invitationToken now2 = none := by
  apply List.find?_eq_none.mpr
  intro j hj
  rcases List.mem_map.mp hj with ⟨i, hi, rfl⟩
  by_cases hie : i.id = ex.id
  · have hb : ((i.id == ex.id) = true) := by simp [hie]
    rw [if_pos hb]
    simp [htokne]
  · have hb : ¬((i.id == ex.id) = true) := by simp [hie]
    rw [if_neg hb]
    have hne : i.invitationToken ≠ ex.invitationToken := by
      intro h
      exact hie (congrArg Invitation.id (huniq i hi h))
    simp [hne]

/-- C5: with one invitation row present for the (organization, normalized
email) pair, a second invite while it is live is rejected with the
duplicate-pending Conflict and the ledger is unchanged; when it is
declined, accepted (with no live User — guaranteed here by the
duplicate-user guard), or expired, the SAME row is recycled in place (new
token, new expiry, status back to `invited`, `memberId` cleared, row count
preserved), and registration with the old token afterwards fails with the
invalid-or-expired error. -/
theorem c5_invite_dedup_recycle (users : List User) (invs : List Invitation)
    (actor : User) (org : Organization) (now : Nat) (freshToken : String)
    (freshId : Oid) (email : String) (roleReq : Option Role)
    (ex : Invitation)
    (hat : strIncludesChar email '@' = true)
    (hauth : canInviteUser actor org = true)
    (hnouser : findUserByEmailOrg users (strTrim (strLower email)) org.id
      = none)
    (hfound : findInvitationByOrgEmail invs org.id
      (strTrim (strLower email)) = some ex) :
    (ex.status = InvStatus.invited → now < ex.tokenExpiresAt →
        inviteUserToOrganization users invs actor org now freshToken freshId
            email roleReq =
          (.err 400 "Invitation already sent to this email. Please wait for it to be accepted or expired.",
            invs)) ∧
      (ex.status = InvStatus.declined ∨ ex.status = InvStatus.accepted ∨
          ex.tokenExpiresAt ≤ now →
        ∃ recycled,
          inviteUserToOrganization users invs actor org now freshToken
              freshId email roleReq =
            (.ok recycled,
              invs.map (fun i => if i.id == ex.id then recycled else i)) ∧
          recycled.id = ex.id ∧ recycled.organization = ex.organization ∧
          recycled.status = InvStatus.invited ∧
          recycled.invitationToken = freshToken ∧
          recycled.tokenExpiresAt = now + invitationTtlMs ∧
          recycled.memberId = none ∧
          (invs.map (fun i => if i.id == ex.id then recycled else i)).length
            = invs.length ∧
          (freshToken ≠ ex.invitationToken →
            (∀ j ∈ invs, j.invitationToken = ex.invitationToken → j = ex) →
            ∀ (users2 : List User) (orgs2 : List Organization) (now2 : Nat)
              (fu2 fo2 : Oid) (req2 : RegisterReq),
              req2.name ≠ "" → req2.email ≠ "" → req2.password ≠ "" →
              req2.invitationToken = some ex.invitationToken →
              register users2 orgs2
                  (invs.map (fun i => if i.id == ex.id then recycled else i))
                  now2 fu2 fo2 req2 =
                ⟨.err 400 "Invalid or expired invitation", users2, orgs2,
                  invs.map (fun i =>
                    if i.id == ex.id then recycled else i)⟩)) := by
  constructor
  · intro hst hexp
    unfold inviteUserToOrganization
    simp [hat, hauth, hnouser, hfound, hst, hexp]
  · intro hstale
    have hlive : (ex.status == InvStatus.invited &&
        decide (now < ex.tokenExpiresAt)) = false := by
      rcases hstale with h | h | h
      · simp [h]
      · simp [h]
      · simp [Nat.not_lt.mpr h]
    have hmain : ∃ recycled,
        inviteUserToOrganization users invs actor org now freshToken freshId
            email roleReq =
          (.ok recycled,
            invs.map (fun i => if i.id == ex.id then recycled else i)) ∧
        recycled.id = ex.id ∧ recycled.organization = ex.organization ∧
        recycled.status = InvStatus.invited ∧
        recycled.invitationToken = freshToken ∧
        recycled.tokenExpiresAt = now + invitationTtlMs ∧
        recycled.memberId = none := by
      refine ⟨⟨ex.id, ex.organization, actor.id, strTrim (strLower email),
        none, InvStatus.invited, validatedInviteRole roleReq, freshToken,
        now + invitationTtlMs⟩, ?_, rfl, rfl, rfl, rfl, rfl, rfl⟩
      by_cases hacc : ex.status = InvStatus.accepted
      · unfold inviteUserToOrganization
        simp [hat, hauth, hnouser, hfound, hacc]
      · have haccb : (ex.status == InvStatus.accepted) = false := by
          simp [hacc]
        rcases hstale with h | h | h
        · unfold inviteUserToOrganization
          simp [hat, hauth, hnouser, hfound, hlive, haccb, h]
        · exact absurd h hacc
        · unfold inviteUserToOrganization
          simp [hat, hauth, hnouser, hfound, hlive, haccb, h]
    rcases hmain with ⟨recycled, hres, hid, horg, hst2, htk, hexp2, hmid⟩
    refine ⟨recycled, hres, hid, horg, hst2, htk, hexp2, hmid,
      List.length_map _ _, ?_⟩
    intro hfresh huniq users2 orgs2 now2 fu2 fo2 req2 hn2 he2 hp2 ht2
    apply register_invalid_token users2 orgs2 _ now2 fu2 fo2 req2
      ex.invitationToken (by simp [hn2, he2, hp2]) ht2
    apply findLiveInvitation_after_recycle invs ex recycled now2
    · rw [htk]
      exact hfresh
    · exact huniq

/-- Witness for C5: a second invite against the live invitation is
rejected leaving the ledger unchanged, and an invite against the declined
invitation recycles it in place. -/
theorem c5_dedup_witness :
    (inviteUserToOrganization [] [c5LiveInv] c5Admin c5Org 10 "tokNew" 90
        "Bob@x.com" (some Role.member) =
      (.err 400 "Invitation already sent to this email. Please wait for it to be accepted or expired.",
        [c5LiveInv])) ∧
      ∃ recycled,
        inviteUserToOrganization [] [c5DeclinedInv] c5Admin c5Org 10
            "tokNew" 90 "Bob@x.com" (some Role.member) =
          (.ok recycled,
            [c5DeclinedInv].map (fun i =>
              if i.id == c5DeclinedInv.id then recycled else i)) ∧
        recycled.id = c5DeclinedInv.id ∧
        recycled.organization = c5DeclinedInv.organization ∧
        recycled.status = InvStatus.invited ∧
        recycled.invitationToken = "tokNew" ∧
        recycled.tokenExpiresAt = 10 + invitationTtlMs ∧
        recycled.memberId = none ∧
        ([c5DeclinedInv].map (fun i =>
            if i.id == c5DeclinedInv.id then recycled else i)).length
          = [c5DeclinedInv].length ∧
        ("tokNew" ≠ c5DeclinedInv.invitationToken →
          (∀ j ∈ [c5DeclinedInv],
            j.invitationToken = c5DeclinedInv.invitationToken →
              j = c5DeclinedInv) →
          ∀ (users2 : List User) (orgs2 : List Organization) (now2 : Nat)
            (fu2 fo2 : Oid) (req2 : RegisterReq),
            req2.name ≠ "" → req2.email ≠ "" → req2.password ≠ "" →
            req2.invitationToken = some c5DeclinedInv.invitationToken →
            register users2 orgs2
                ([c5DeclinedInv].map (fun i =>
                  if i.id == c5DeclinedInv.id then recycled else i))
                now2 fu2 fo2 req2 =
              ⟨.err 400 "Invalid or expired invitation", users2, orgs2,
                [c5DeclinedInv].map (fun i =>
                  if i.id == c5DeclinedInv.id then recycled else i)⟩) := by
  have h1 := c5_invite_dedup_recycle [] [c5LiveInv] c5Admin c5Org 10
    "tokNew" 90 "Bob@x.com" (some Role.member) c5LiveInv (by decide)
    (by decide) (by decide) (by decide)
  have h2 := c5_invite_dedup_recycle [] [c5DeclinedInv] c5Admin c5Org 10
    "tokNew" 90 "Bob@x.com" (some Role.member) c5DeclinedInv (by decide)
    (by decide) (by decide) (by decide)
  exact ⟨h1.1 rfl (by decide), h2.2 (Or.inl rfl)⟩

/-- C8 (code bug): the owner's invite of `bob@x.com` as `manager`
succeeds and stores role `manager` on the invitation, but Bob's
registration with that token FAILS: the role enum of `user.model.js` is
`['owner', 'admin', 'member']`, so `User.save()` raises a mongoose
ValidationError which the controller surfaces as a 500; no User is
created and the invitation is never marked accepted. -/
theorem c8_manager_invite_registration_bug :
    inviteUserToOrganization [acmeOwner] [] acmeOwner acmeOrg 0 "tokM" 50
        "bob@x.com" (some Role.manager) =
      (.ok managerInvitation, [managerInvitation]) ∧
      managerInvitation.role = Role.manager ∧
      userSchemaRoleOk Role.manager = false ∧
      register [acmeOwner] [acmeOrg] [managerInvitation] 1 60 70
          bobManagerReq =
        ⟨.err 500 "Server error", [acmeOwner], [acmeOrg],
          [managerInvitation]⟩ := by
  decide

end Kanban
